import Mathlib

/-!
Verification development for the Signal-TUI core: a shallow embedding of the
JSON-RPC protocol engine (SignalClient.ts), the durable message store
(MessageStorage.ts), the conversation-identity resolution (phone.ts and the
App envelope handler), and the receipt orchestration, together with theorems
settling the behavioural claims about them.
-/

/-- A parsed JSON value, as produced by JSON.parse on one line of daemon
output. Numbers are modelled as integers (request ids and timestamps are
integral in this protocol). -/
inductive Json where
  | null : Json
  | bool : Bool → Json
  | num : Int → Json
  | str : String → Json
  | arr : List Json → Json
  | obj : List (String × Json) → Json

/-- JavaScript truthiness of a JSON value. -/
def truthy : Json → Bool
  | Json.null => false
  | Json.bool b => b
  | Json.num n => !(n == 0)
  | Json.str s => !(s == "")
  | Json.arr _ => true
  | Json.obj _ => true

/-- Property lookup on an object field list (first match). -/
def lookupField : List (String × Json) → String → Option Json
  | [], _ => none
  | (k, v) :: rest, key => if k == key then some v else lookupField rest key

/-- Property access `j[key]`: some value when the key is present on an
object, none otherwise (absent key, or not an object). -/
def getField : Json → String → Option Json
  | Json.obj fs, key => lookupField fs key
  | _, _ => none

/-- Truthiness of the property `j[key]` (an absent property is falsy). -/
def truthyField (j : Json) (key : String) : Bool :=
  match getField j key with
  | some v => truthy v
  | none => false

/-- The `typeof json === "object" && json !== null` test of the type guards
(JavaScript arrays are objects too). -/
def isObjLike : Json → Bool
  | Json.obj _ => true
  | Json.arr _ => true
  | _ => false

/-- The guard checks `"jsonrpc" in json && json.jsonrpc === "2.0"`. -/
def jsonrpcIs20 (j : Json) : Bool :=
  match getField j "jsonrpc" with
  | some (Json.str s) => s == "2.0"
  | _ => false

/-- The guard checks `"id" in json && json.id !== null`. -/
def idNonNull (j : Json) : Bool :=
  match getField j "id" with
  | some Json.null => false
  | some _ => true
  | none => false

/-- SignalClient.isJsonRpcResponse: an object declaring jsonrpc "2.0" with a
present, non-null id. -/
def isJsonRpcResponse (j : Json) : Bool :=
  isObjLike j && jsonrpcIs20 j && idNonNull j

/-- SignalClient.isSignalEnvelope: an object carrying a numeric timestamp. -/
def isSignalEnvelope (j : Json) : Bool :=
  match getField j "timestamp" with
  | some (Json.num _) => true
  | _ => false

/-- The typed events handleEnvelope can emit. The dataMessage branch and the
generic fallback branch both emit the `message` event. -/
inductive EnvEvent where
  | receipt : EnvEvent
  | typing : EnvEvent
  | sync : EnvEvent
  | message : EnvEvent
deriving DecidableEq, Repr

/-- SignalClient.handleEnvelope: a null envelope raises a TypeError on the
very first property access (none); any other value goes through the if/else
chain choosing which event it fires (receipt, then typing, then sync, then
dataMessage, with a generic `message` emission for everything else). -/
def envelopeEvent (e : Json) : Option EnvEvent :=
  match e with
  | Json.null => none
  | _ =>
    some (if truthyField e "receiptMessage" then EnvEvent.receipt
      else if truthyField e "typingMessage" then EnvEvent.typing
      else if truthyField e "syncMessage" then EnvEvent.sync
      else if truthyField e "dataMessage" then EnvEvent.message
      else EnvEvent.message)

/-- What handleJsonMessage does with one parsed line: route it to the
response handler, fire one envelope event with an extracted payload, fall
off the end of the method (dropped, nothing logged), or raise inside
handleEnvelope (thrown: processBuffer's per-line catch logs the error and
drops the line, so no event fires). -/
inductive Handled where
  | response : Handled
  | envelope : EnvEvent → Json → Handled
  | dropped : Handled
  | thrown : Handled

/-- Passing an extracted payload to handleEnvelope: one event fires, except
that a null payload raises (the error is caught by the read loop and the
line is dropped without an event). -/
def dispatchEnvelope (e : Json) : Handled :=
  match envelopeEvent e with
  | some ev => Handled.envelope ev e
  | none => Handled.thrown

/-- SignalClient.handleJsonMessage, translated branch by branch: JSON-RPC
response check, bare envelope (numeric timestamp), wrapped `{envelope: ...}`
shape, then the `{method: "receive", params: {envelope: ...}}` shape;
anything else falls through. -/
def handleJsonMessage (j : Json) : Handled :=
  if isJsonRpcResponse j then Handled.response
  else if isSignalEnvelope j then dispatchEnvelope j
  else
    match getField j "envelope" with
    | some e => dispatchEnvelope e
    | none =>
      match getField j "method", getField j "params" with
      | some (Json.str m), some p =>
        if m == "receive" && truthy p then
          match getField p "envelope" with
          | some e => dispatchEnvelope e
          | none => Handled.dropped
        else Handled.dropped
      | _, _ => Handled.dropped

/-- Completion of one pending call: resolve carries the `result` field of the
response (none models an absent field, i.e. resolving with undefined);
reject carries the response's error value. -/
inductive CallOutcome where
  | resolved : Option Json → CallOutcome
  | rejected : Json → CallOutcome

/-- The engine state relevant to request/response correlation: the ids of
in-flight calls (the keys of the pendingRequests map) and the log of call
completions in the order they were settled. -/
structure EngineState where
  pending : List Int
  outcomes : List (Int × CallOutcome)

/-- SignalClient.handleResponse: a null id returns early; an id with no
pending entry returns without touching anything; otherwise the entry is
removed and the call settles, rejected when the response carries a truthy
error field and resolved with the result field otherwise. -/
def handleResponse (s : EngineState) (j : Json) : EngineState :=
  match getField j "id" with
  | some (Json.num id) =>
    if s.pending.contains id then
      { pending := s.pending.erase id,
        outcomes := s.outcomes ++ [(id,
          match getField j "error" with
          | some e => if truthy e then CallOutcome.rejected e
                      else CallOutcome.resolved (getField j "result")
          | none => CallOutcome.resolved (getField j "result"))] }
    else s
  | _ => s

/-- The engine-state effect of one parsed line: only the response branch of
handleJsonMessage mutates the pending map; every other branch only emits
events. -/
def stepMessage (s : EngineState) (j : Json) : EngineState :=
  if isJsonRpcResponse j then handleResponse s j else s

/-- A parsed line that is classified as a response and whose id equals n. -/
def isResponseFor (n : Int) (j : Json) : Bool :=
  isJsonRpcResponse j &&
    (match getField j "id" with
     | some (Json.num m) => m == n
     | _ => false)

/-- A ChatMessage as defined in types.ts: senderName and status are optional
fields (none models undefined). -/
structure ChatMessage where
  id : String
  sender : String
  senderName : Option String
  content : String
  timestamp : Int
  isOutgoing : Bool
  status : Option String
deriving DecidableEq, Repr

/-- One row of the messages table. rowid is the implicit SQLite row id
(monotone insertion counter); status is NOT NULL with default "sent". -/
structure Row where
  rowid : Nat
  id : String
  conversation_id : String
  sender : String
  sender_name : Option String
  content : String
  timestamp : Int
  is_outgoing : Bool
  status : String
deriving DecidableEq, Repr

/-- The JavaScript `s || null` coercion used for the sender_name column: an
empty or absent string stores NULL. -/
def jsStrOrNull : Option String → Option String
  | some v => if v == "" then none else some v
  | none => none

/-- The `msg.status || "sent"` default used for the status column. -/
def statusOrSent : Option String → String
  | some v => if v == "" then "sent" else v
  | none => "sent"

/-- Column mapping of MessageStorage.addMessage for one inserted row. -/
def mkRow (msg : ChatMessage) (conversationId : String) (rowid : Nat) : Row :=
  { rowid := rowid
    id := msg.id
    conversation_id := conversationId
    sender := msg.sender
    sender_name := jsStrOrNull msg.senderName
    content := msg.content
    timestamp := msg.timestamp
    is_outgoing := msg.isOutgoing
    status := statusOrSent msg.status }

/-- Row-to-ChatMessage conversion performed by MessageStorage.getMessages
(`sender_name || undefined`, `Boolean(is_outgoing)`, status kept). -/
def toChat (r : Row) : ChatMessage :=
  { id := r.id
    sender := r.sender
    senderName := jsStrOrNull r.sender_name
    content := r.content
    timestamp := r.timestamp
    isOutgoing := r.is_outgoing
    status := some r.status }

/-- Change events emitted by the store. -/
inductive StoreEvent where
  | newMessage : ChatMessage → String → StoreEvent
  | messageReplaced : String → ChatMessage → StoreEvent
  | statusUpdated : Int → String → StoreEvent
deriving DecidableEq, Repr

/-- The state of the messages table: rows in insertion order plus the next
fresh SQLite rowid. -/
structure StoreState where
  rows : List Row
  nextRowid : Nat
deriving DecidableEq, Repr

/-- MessageStorage.addMessage: INSERT OR REPLACE keyed by id (a conflicting
row is deleted and the new row gets a fresh rowid), then a synchronous
new-message emission. -/
def addMessage (s : StoreState) (msg : ChatMessage) (conversationId : String) :
    StoreState × List StoreEvent :=
  ({ rows := s.rows.filter (fun r => !(r.id == msg.id)) ++ [mkRow msg conversationId s.nextRowid]
     nextRowid := s.nextRowid + 1 },
   [StoreEvent.newMessage msg conversationId])

/-- The ORDER BY timestamp DESC of getMessages, with the SQLite tie-break on
the (conversation_id, timestamp) index: equal timestamps come out in
descending rowid order. -/
def rowGe (a b : Row) : Prop :=
  b.timestamp < a.timestamp ∨ (b.timestamp = a.timestamp ∧ b.rowid ≤ a.rowid)

instance : DecidableRel rowGe := fun a b =>
  inferInstanceAs (Decidable (b.timestamp < a.timestamp ∨
    (b.timestamp = a.timestamp ∧ b.rowid ≤ a.rowid)))

instance : IsTotal Row rowGe :=
  ⟨by
    intro a b
    rcases lt_trichotomy a.timestamp b.timestamp with h | h | h
    · exact Or.inr (Or.inl h)
    · rcases Nat.le_total b.rowid a.rowid with h2 | h2
      · exact Or.inl (Or.inr ⟨h.symm, h2⟩)
      · exact Or.inr (Or.inr ⟨h, h2⟩)
    · exact Or.inl (Or.inl h)⟩

instance : IsTrans Row rowGe :=
  ⟨by
    intro a b c hab hbc
    rcases hab with h1 | ⟨h1, h1r⟩
    · rcases hbc with h2 | ⟨h2, _⟩
      · exact Or.inl (h2.trans h1)
      · exact Or.inl (h2 ▸ h1)
    · rcases hbc with h2 | ⟨h2, h2r⟩
      · exact Or.inl (h1 ▸ h2)
      · exact Or.inr ⟨h2.trans h1, h2r.trans h1r⟩⟩

/-- The WHERE clause of getMessages: conversation match, plus the optional
`timestamp < beforeTimestamp` cursor, which is skipped when the cursor
argument is falsy (absent or zero). -/
def matchesQuery (conversationId : String) (beforeTimestamp : Option Int) (r : Row) : Bool :=
  r.conversation_id == conversationId &&
    (match beforeTimestamp with
     | some b => if b == 0 then true else decide (r.timestamp < b)
     | none => true)

/-- MessageStorage.getMessages: filter rows, order newest first, LIMIT, map
to ChatMessage and reverse so the oldest comes first. -/
def getMessages (s : StoreState) (conversationId : String) (limit : Nat)
    (beforeTimestamp : Option Int) : List ChatMessage :=
  ((((s.rows.filter (matchesQuery conversationId beforeTimestamp)).insertionSort rowGe).take
      limit).map toChat).reverse

/-- MessageStorage.updateMessageStatus: UPDATE messages SET status WHERE
timestamp matches AND is_outgoing = 1. The status-updated emission is
Modelled from the spec: the MessageStorage revision under src/ predates its
callers (ChatArea subscribes to status-updated), and the spec states the
operation emits `status-updated(timestamp, status)`. -/
def updateMessageStatus (s : StoreState) (timestamp : Int) (status : String) :
    StoreState × List StoreEvent :=
  ({ s with rows := s.rows.map (fun r =>
      if r.timestamp == timestamp && r.is_outgoing then { r with status := status } else r) },
   [StoreEvent.statusUpdated timestamp status])

/-- Modelled from the spec: `replaceMessage(oldId, newMessage, conversationKey)`
is absent from the MessageStorage revision under src/, though ChatArea calls
it and subscribes to its event; per the spec it atomically removes the row
whose id is oldId, inserts newMessage (with addMessage's column mapping and
keyed-by-id replacement), and emits `message-replaced(oldId, newMessage)`. -/
def replaceMessage (s : StoreState) (oldId : String) (newMessage : ChatMessage)
    (conversationId : String) : StoreState × List StoreEvent :=
  ({ rows := ((s.rows.filter (fun r => !(r.id == oldId))).filter
        (fun r => !(r.id == newMessage.id))) ++ [mkRow newMessage conversationId s.nextRowid]
     nextRowid := s.nextRowid + 1 },
   [StoreEvent.messageReplaced oldId newMessage])

/-- The receipt-type-to-status mapping of the App receipt listener:
`type === "READ" || type === "VIEWED" ? "read" : "delivered"`. -/
def receiptStatus (rtype : String) : String :=
  if rtype == "READ" || rtype == "VIEWED" then "read" else "delivered"

/-- The App receipt listener body: one updateMessageStatus call per timestamp
in the receipt's timestamps list, all with the status derived from the
receipt type. Returns the final store state and the emitted events in
order. -/
def handleReceiptEnvelope (s : StoreState) (rtype : String) (timestamps : List Int) :
    StoreState × List StoreEvent :=
  timestamps.foldl
    (fun acc ts =>
      let r := updateMessageStatus acc.1 ts (receiptStatus rtype)
      (r.1, acc.2 ++ r.2))
    (s, [])

/-- The character set stripped by the JavaScript string trim used in
normalizeNumber: the ECMAScript WhiteSpace characters (TAB, VT, FF, SP,
NBSP, BOM and the Unicode space separators) together with the
LineTerminator characters (LF, CR, LS, PS). -/
def jsWhitespaceChars : List Char :=
  [' ', '\t', '\n', '\x0b', '\x0c', '\r', '\u00A0', '\u1680',
   '\u2000', '\u2001', '\u2002', '\u2003', '\u2004', '\u2005', '\u2006',
   '\u2007', '\u2008', '\u2009', '\u200A', '\u2028', '\u2029', '\u202F',
   '\u205F', '\u3000', '\uFEFF']

/-- Membership in the trim whitespace set. -/
def jsWhitespace (c : Char) : Bool :=
  jsWhitespaceChars.contains c

/-- The `.trim()` call of normalizeNumber, over the character list of the
string: leading and trailing whitespace removed. -/
def jsTrim (l : List Char) : List Char :=
  ((l.dropWhile jsWhitespace).reverse.dropWhile jsWhitespace).reverse

/-- phone.ts normalizeNumber: a falsy input (absent, null, or empty string)
yields ""; otherwise the input is trimmed, a leading "+" of the trimmed
string is remembered, every non-digit is removed (the `\D` regex), and the
"+" is prepended back when it was present. -/
def normalizeNumber (phone : Option String) : String :=
  match phone with
  | none => ""
  | some p =>
    if p == "" then ""
    else
      let str := jsTrim p.toList
      let hasPlus := str.headD ' ' == '+'
      let digits := str.filter Char.isDigit
      if hasPlus then String.mk ('+' :: digits) else String.mk digits

/-- The JavaScript `a || b` over two optional strings ("" is falsy). -/
def jsOrStr (a b : Option String) : Option String :=
  match a with
  | some s => if s == "" then b else some s
  | none => b

/-- The conversation key the App envelope handler computes for an incoming
direct or group data message: the group id verbatim when groupInfo is
present, otherwise `normalizeNumber(sourceNumber || sourceUuid)`. -/
def incomingConversationId (groupId sourceNumber sourceUuid : Option String) : String :=
  match groupId with
  | some g => g
  | none => normalizeNumber (jsOrStr sourceNumber sourceUuid)

/-- The conversation id the Sidebar assigns to a contact:
`normalizeNumber(c.number) || c.uuid || ""`. -/
def sidebarContactId (number uuid : Option String) : String :=
  let n := normalizeNumber number
  if n == "" then
    match uuid with
    | some u => if u == "" then "" else u
    | none => ""
  else n

/-- The split-on-newline of processBuffer over a character list: the complete
lines (everything before each newline) and the trailing residue (the last,
possibly incomplete, element of the split, which the code stores back into
the buffer). -/
def splitNl : List Char → List (List Char) × List Char
  | [] => ([], [])
  | c :: cs =>
    if c = '\n' then
      ([] :: (splitNl cs).1, (splitNl cs).2)
    else
      match (splitNl cs).1, (splitNl cs).2 with
      | [], r => ([], c :: r)
      | l :: ls, r => ((c :: l) :: ls, r)

/-- One processBuffer call: the chunk is appended to the rolling buffer, the
result is split on newline, the last element becomes the new buffer and the
rest are the complete lines handled now. -/
def processBufferStep (buffer chunk : List Char) : List (List Char) × List Char :=
  splitNl (buffer ++ chunk)

/-- Feeding a sequence of chunks through the read loop: each chunk goes
through processBufferStep against the current buffer; returns all complete
lines in handling order and the final buffer residue. -/
def feedChunks (buffer : List Char) : List (List Char) → List (List Char) × List Char
  | [] => ([], buffer)
  | c :: cs =>
    let step := processBufferStep buffer c
    let rest := feedChunks step.2 cs
    (step.1 ++ rest.1, rest.2)

/-- The per-line handling of processBuffer, abstracted over JSON.parse: a
line whose trimmed form is empty is skipped, a line the parser rejects is
logged and skipped, and every successfully parsed line is handled. -/
def processLines (parse : List Char → Option Json) (lines : List (List Char)) : List Json :=
  lines.filterMap (fun l => if jsTrim l == [] then none else parse l)

/-- Payload extraction for a line that is not a response, following the
claim: a bare envelope (an object with a numeric timestamp) is the payload
itself, a wrapped `{envelope: ...}` contributes its envelope field, and a
`{method: "receive", params: {envelope: ...}}` notification contributes the
envelope inside its truthy params. -/
def extractPayload (j : Json) : Option Json :=
  if isSignalEnvelope j then some j
  else
    match getField j "envelope" with
    | some e => some e
    | none =>
      match getField j "method", getField j "params" with
      | some (Json.str m), some p =>
        if m == "receive" && truthy p then getField p "envelope" else none
      | _, _ => none

/-- The event priority as the amended claim states it: receipt over typing
over sync over data-message, with a generic message event for any envelope
matching none of these; a null payload makes the envelope handler raise, so
no event fires for it (none). -/
def specEvent (e : Json) : Option EnvEvent :=
  match e with
  | Json.null => none
  | _ =>
    some (if truthyField e "receiptMessage" then EnvEvent.receipt
      else if truthyField e "typingMessage" then EnvEvent.typing
      else if truthyField e "syncMessage" then EnvEvent.sync
      else EnvEvent.message)

/-- The classification algorithm as the amended claim states it: a line is a
response exactly when it is an object declaring jsonrpc "2.0" and carrying a
non-null id; otherwise it is a notification whose payload is extracted, and
exactly one prioritized event fires for that payload, except that a null
payload makes the envelope handler raise (caught by the read loop, line
dropped, no event); a notification with no extractable payload falls through
silently. -/
def classifySpec (j : Json) : Handled :=
  if isObjLike j && jsonrpcIs20 j && idNonNull j then Handled.response
  else
    match extractPayload j with
    | some e =>
      match specEvent e with
      | some ev => Handled.envelope ev e
      | none => Handled.thrown
    | none => Handled.dropped

theorem filter_dropWhile_of_excl {p q : Char → Bool} (h : ∀ c, q c = true → p c = false) :
    ∀ l : List Char, (l.dropWhile q).filter p = l.filter p := by
  intro l
  induction l with
  | nil => rfl
  | cons a l ih =>
    by_cases ha : q a = true
    · rw [List.dropWhile_cons_of_pos ha, ih, List.filter_cons_of_neg]
      simp [h a ha]
    · rw [List.dropWhile_cons_of_neg (by simp [ha])]

theorem jsWhitespace_not_digit (c : Char) (h : jsWhitespace c = true) :
    Char.isDigit c = false := by
  have hmem : c ∈ jsWhitespaceChars := by
    unfold jsWhitespace at h
    simpa using h
  have hall : ∀ x ∈ jsWhitespaceChars, Char.isDigit x = false := by decide
  exact hall c hmem

theorem filter_digit_jsTrim (l : List Char) :
    (jsTrim l).filter Char.isDigit = l.filter Char.isDigit := by
  unfold jsTrim
  rw [List.filter_reverse, filter_dropWhile_of_excl jsWhitespace_not_digit,
    List.filter_reverse, List.reverse_reverse,
    filter_dropWhile_of_excl jsWhitespace_not_digit]

/-- Claim C9 (amended): normalizeNumber is total and, for every input
string, returns the string of the input's digit characters in order with a
single leading plus prepended exactly when the trimmed input starts with a
plus; a null or absent input yields "", and the claim's concrete examples
hold. -/
theorem normalizeNumber_characterization :
    normalizeNumber none = "" ∧
    (∀ p : String,
      normalizeNumber (some p) =
        String.mk ((if (jsTrim p.toList).headD ' ' = '+' then ['+'] else []) ++
          p.toList.filter Char.isDigit)) ∧
    normalizeNumber (some "(555) 123-4567") = "5551234567" ∧
    normalizeNumber (some "+1 (555) 123-4567") = "+15551234567" := by
  refine ⟨rfl, ?_, by decide, by decide⟩
  intro p
  by_cases hp : p = ""
  · subst hp; decide
  · simp only [normalizeNumber, if_neg (show ¬(p == "") = true by simp [hp])]
    by_cases hplus : (jsTrim p.toList).headD ' ' = '+'
    · rw [if_pos (show ((jsTrim p.toList).headD ' ' == '+') = true by simpa using hplus),
        if_pos hplus, filter_digit_jsTrim]
      rfl
    · rw [if_neg (show ¬((jsTrim p.toList).headD ' ' == '+') = true by simpa using hplus),
        if_neg hplus, filter_digit_jsTrim]
      rfl

/-- Claim C9 (counterexample to the claim as stated): on the input " +123",
whose first character is a space and not a plus, the code still prepends the
plus (it tests the trimmed string), so the output is "+123" and not the
digits-only "123" the claim predicts for an input that does not start with
a plus. -/
theorem normalizeNumber_space_plus_counterexample :
    (" +123").toList.headD ' ' = ' ' ∧
    normalizeNumber (some " +123") = "+123" ∧
    normalizeNumber (some " +123") ≠ "123" := by
  refine ⟨by decide, by decide, by decide⟩

/-- Claim C3: for an incoming direct data message with no phone-number
handle and only a sourceUuid, the App envelope handler pushes the uuid
through normalizeNumber, which strips every non-digit, so the stored
conversation key is the digit subsequence of the uuid and not the uuid
verbatim; the Sidebar keys the very same counterparty by the verbatim uuid,
so the two keys disagree, breaking the one-key-per-counterparty invariant
the spec requires. -/
theorem incoming_uuid_key_not_verbatim :
    incomingConversationId none none (some "abc-123-def") = "123" ∧
    sidebarContactId none (some "abc-123-def") = "abc-123-def" ∧
    ("123" : String) ≠ "abc-123-def" := by
  refine ⟨by decide, by decide, by decide⟩

theorem envelopeEvent_eq_specEvent (e : Json) : envelopeEvent e = specEvent e := by
  cases e <;> first
  | rfl
  | (simp only [envelopeEvent, specEvent]; split_ifs <;> rfl)

theorem dispatchEnvelope_eq_spec (e : Json) :
    dispatchEnvelope e =
      match specEvent e with
      | some ev => Handled.envelope ev e
      | none => Handled.thrown := by
  unfold dispatchEnvelope
  rw [envelopeEvent_eq_specEvent]

/-- Claim C4 (amended): classification of a parsed line follows first-match
priority. A line is treated as a response exactly when it is an object that
declares jsonrpc "2.0" and carries a non-null id; otherwise it is a
notification whose payload is extracted (bare envelope with numeric
timestamp, wrapped envelope object, or receive-notification with params),
and, for a non-null payload, exactly one of the receipt, typing, sync, or
message events fires, receipt over typing over sync over data-message, with
an envelope matching none of these still firing the generic message event;
a null payload makes the envelope handler raise, the read loop catches the
error and drops the line without an event. -/
theorem handleJsonMessage_follows_spec (j : Json) :
    handleJsonMessage j = classifySpec j := by
  unfold handleJsonMessage classifySpec extractPayload isJsonRpcResponse
  by_cases h1 : (isObjLike j && jsonrpcIs20 j && idNonNull j) = true
  · simp [h1]
  · rw [if_neg h1, if_neg h1]
    by_cases h2 : isSignalEnvelope j = true
    · simp [h2, dispatchEnvelope_eq_spec]
    · rw [if_neg h2, if_neg h2]
      cases getField j "envelope" with
      | some e => simp [dispatchEnvelope_eq_spec]
      | none =>
        cases hm : getField j "method" with
        | none => rfl
        | some v =>
          cases v with
          | null => rfl
          | bool b => rfl
          | num n => rfl
          | arr a => rfl
          | obj o => rfl
          | str m =>
            cases hp : getField j "params" with
            | none => rfl
            | some p =>
              dsimp only
              by_cases hc : (m == "receive" && truthy p) = true
              · rw [if_pos hc, if_pos hc]
                cases getField p "envelope" with
                | none => rfl
                | some e => simp [dispatchEnvelope_eq_spec]
              · rw [if_neg hc, if_neg hc]

/-- Claim C4 (counterexample to the claim as stated): the parsed line
`{"id": 5}` carries a non-null id, so the claim says it is treated as a
response; the code additionally requires the jsonrpc "2.0" tag, so this line
matches no branch of handleJsonMessage and is dropped instead of being
routed to the response handler. A second defect: on `{"envelope": null}` the
claim says a generic message event still fires, but handleEnvelope(null)
raises on its first property access, the read loop catches the error and
the line is dropped with no event. -/
theorem id_without_jsonrpc_not_response :
    idNonNull (Json.obj [("id", Json.num 5)]) = true ∧
    handleJsonMessage (Json.obj [("id", Json.num 5)]) = Handled.dropped ∧
    handleJsonMessage (Json.obj [("envelope", Json.null)]) = Handled.thrown := by
  exact ⟨rfl, rfl, rfl⟩

/-- Claim C10: a parsed line classified as a response whose id matches no
entry of the pending-request map is discarded silently: the engine state
(pending ids and call outcomes) is unchanged, and the line fires no envelope
event (its classification is the response branch, which emits nothing). -/
theorem unknown_id_response_ignored (s : EngineState) (j : Json) (n : Int)
    (hresp : isJsonRpcResponse j = true)
    (hid : getField j "id" = some (Json.num n))
    (hmiss : s.pending.contains n = false) :
    stepMessage s j = s ∧ handleJsonMessage j = Handled.response := by
  constructor
  · unfold stepMessage
    rw [if_pos hresp]
    unfold handleResponse
    rw [hid]
    dsimp only
    have hne : ¬s.pending.contains n = true := by
      rw [hmiss]
      exact Bool.false_ne_true
    rw [if_neg hne]
  · unfold handleJsonMessage
    rw [if_pos hresp]

/-- Claim C10 (witness): a concrete response for id 7 arriving while only
ids 1 and 2 are pending leaves the engine state untouched. -/
theorem unknown_id_response_ignored_witness :
    isJsonRpcResponse (Json.obj [("jsonrpc", Json.str "2.0"), ("id", Json.num 7),
      ("result", Json.str "ok")]) = true ∧
    getField (Json.obj [("jsonrpc", Json.str "2.0"), ("id", Json.num 7),
      ("result", Json.str "ok")]) "id" = some (Json.num 7) ∧
    (EngineState.mk [1, 2] []).pending.contains 7 = false ∧
    stepMessage (EngineState.mk [1, 2] [])
      (Json.obj [("jsonrpc", Json.str "2.0"), ("id", Json.num 7),
        ("result", Json.str "ok")]) = EngineState.mk [1, 2] [] := by
  refine ⟨rfl, rfl, rfl, ?_⟩
  exact (unknown_id_response_ignored (EngineState.mk [1, 2] [])
    (Json.obj [("jsonrpc", Json.str "2.0"), ("id", Json.num 7), ("result", Json.str "ok")])
    7 rfl rfl rfl).1

theorem stepMessage_preserves_other (s : EngineState) (j : Json) (n : Int)
    (hnot : isResponseFor n j = false) :
    (n ∈ s.pending → n ∈ (stepMessage s j).pending) ∧
    (s.pending.Nodup → (stepMessage s j).pending.Nodup) := by
  unfold stepMessage
  by_cases hr : isJsonRpcResponse j = true
  · rw [if_pos hr]
    unfold handleResponse
    cases hid : getField j "id" with
    | none => exact ⟨id, id⟩
    | some v =>
      cases v with
      | null => exact ⟨id, id⟩
      | bool b => exact ⟨id, id⟩
      | str t => exact ⟨id, id⟩
      | arr a => exact ⟨id, id⟩
      | obj o => exact ⟨id, id⟩
      | num m =>
        dsimp only
        by_cases hc : s.pending.contains m = true
        · rw [if_pos hc]
          have hmn : n ≠ m := by
            intro he
            subst he
            unfold isResponseFor at hnot
            rw [hid] at hnot
            simp [hr] at hnot
          constructor
          · intro hmem
            exact (List.mem_erase_of_ne hmn).mpr hmem
          · intro hnd
            exact hnd.erase m
        · rw [if_neg hc]
          exact ⟨id, id⟩
  · rw [if_neg hr]
    exact ⟨id, id⟩

theorem foldl_stepMessage_preserves (n : Int) :
    ∀ (msgs : List Json) (s : EngineState),
      msgs.all (fun j => !(isResponseFor n j)) = true →
      n ∈ s.pending → s.pending.Nodup →
      n ∈ (msgs.foldl stepMessage s).pending ∧ (msgs.foldl stepMessage s).pending.Nodup := by
  intro msgs
  induction msgs with
  | nil =>
    intro s _ h1 h2
    exact ⟨h1, h2⟩
  | cons j rest ih =>
    intro s hall h1 h2
    rw [List.all_cons, Bool.and_eq_true] at hall
    have hj : isResponseFor n j = false := by
      have := hall.1
      simpa using this
    have hstep := stepMessage_preserves_other s j n hj
    exact ih (stepMessage s j) hall.2 (hstep.1 h1) (hstep.2 h2)

theorem stepMessage_resolves (s1 : EngineState) (r : Json) (n : Int)
    (hresp : isJsonRpcResponse r = true)
    (hid : getField r "id" = some (Json.num n))
    (herr : getField r "error" = none)
    (hc : s1.pending.contains n = true) :
    stepMessage s1 r =
      { pending := s1.pending.erase n,
        outcomes := s1.outcomes ++ [(n, CallOutcome.resolved (getField r "result"))] } := by
  unfold stepMessage
  rw [if_pos hresp]
  unfold handleResponse
  rw [hid]
  dsimp only
  rw [if_pos hc, herr]

/-- Claim C1: for an in-flight call with correlation id n, once a parsed
line classified as a response with id n and no error field is processed, the
call resolves with exactly the response's result field and the pending entry
for n is removed, no matter how many other notifications or responses for
different ids were processed before it. -/
theorem call_resolves_with_result (s : EngineState) (n : Int) (msgs : List Json) (r : Json)
    (hnd : s.pending.Nodup)
    (hn : n ∈ s.pending)
    (hmsgs : msgs.all (fun j => !(isResponseFor n j)) = true)
    (hr : isResponseFor n r = true)
    (herr : getField r "error" = none) :
    (n, CallOutcome.resolved (getField r "result")) ∈
      ((msgs ++ [r]).foldl stepMessage s).outcomes ∧
    n ∉ ((msgs ++ [r]).foldl stepMessage s).pending := by
  rw [List.foldl_append]
  obtain ⟨hmem, hnodup⟩ := foldl_stepMessage_preserves n msgs s hmsgs hn hnd
  unfold isResponseFor at hr
  rw [Bool.and_eq_true] at hr
  have hresp : isJsonRpcResponse r = true := hr.1
  have hid : getField r "id" = some (Json.num n) := by
    have h2 := hr.2
    cases hg : getField r "id" with
    | none => rw [hg] at h2; simp at h2
    | some v =>
      cases v with
      | num m =>
        rw [hg] at h2
        simp only [beq_iff_eq] at h2
        rw [h2]
      | null => rw [hg] at h2; simp at h2
      | bool b => rw [hg] at h2; simp at h2
      | str t => rw [hg] at h2; simp at h2
      | arr a => rw [hg] at h2; simp at h2
      | obj o => rw [hg] at h2; simp at h2
  simp only [List.foldl_cons, List.foldl_nil]
  have hc : (msgs.foldl stepMessage s).pending.contains n = true := by
    simpa using hmem
  rw [stepMessage_resolves (msgs.foldl stepMessage s) r n hresp hid herr hc]
  constructor
  · exact List.mem_append_right _ (List.mem_singleton_self _)
  · intro habs
    have := (List.Nodup.mem_erase_iff hnodup).mp habs
    exact this.1 rfl

/-- Claim C1 (witness): with call id 1 pending, a bare-envelope notification
followed by the response `{"jsonrpc":"2.0","id":1,"result":"ok"}` resolves
call 1 with "ok" and removes it from the pending map. -/
theorem call_resolves_with_result_witness :
    ([1] : List Int).Nodup ∧ (1 : Int) ∈ ([1] : List Int) ∧
    ([Json.obj [("timestamp", Json.num 99)]].all (fun j => !(isResponseFor 1 j)) = true) ∧
    isResponseFor 1 (Json.obj [("jsonrpc", Json.str "2.0"), ("id", Json.num 1),
      ("result", Json.str "ok")]) = true ∧
    getField (Json.obj [("jsonrpc", Json.str "2.0"), ("id", Json.num 1),
      ("result", Json.str "ok")]) "error" = none ∧
    ((1, CallOutcome.resolved (getField (Json.obj [("jsonrpc", Json.str "2.0"),
        ("id", Json.num 1), ("result", Json.str "ok")]) "result")) ∈
      (([Json.obj [("timestamp", Json.num 99)]] ++ [Json.obj [("jsonrpc", Json.str "2.0"),
        ("id", Json.num 1), ("result", Json.str "ok")]]).foldl stepMessage
        (EngineState.mk [1] [])).outcomes ∧
     (1 : Int) ∉ (([Json.obj [("timestamp", Json.num 99)]] ++
        [Json.obj [("jsonrpc", Json.str "2.0"), ("id", Json.num 1),
          ("result", Json.str "ok")]]).foldl stepMessage (EngineState.mk [1] [])).pending) := by
  refine ⟨by decide, by decide, rfl, rfl, rfl, ?_⟩
  exact call_resolves_with_result (EngineState.mk [1] []) 1
    [Json.obj [("timestamp", Json.num 99)]]
    (Json.obj [("jsonrpc", Json.str "2.0"), ("id", Json.num 1), ("result", Json.str "ok")])
    (by decide) (by decide) rfl rfl rfl

/-- Claim C7: updateMessageStatus rewrites exactly the status field of the
rows that match the timestamp and are outgoing, leaves every other row (in
particular any incoming message stored at that timestamp) completely
unchanged, is a no-op on the stored data when no outgoing row matches, and
emits status-updated(timestamp, status). -/
theorem updateMessageStatus_frame (s : StoreState) (ts : Int) (st : String) :
    (updateMessageStatus s ts st).1.rows =
      s.rows.map (fun r =>
        if r.timestamp = ts ∧ r.is_outgoing = true then { r with status := st } else r) ∧
    (s.rows.all (fun r => !(r.timestamp == ts && r.is_outgoing)) = true →
      (updateMessageStatus s ts st).1 = s) ∧
    (∀ r ∈ s.rows, r.is_outgoing = false → r ∈ (updateMessageStatus s ts st).1.rows) ∧
    (updateMessageStatus s ts st).2 = [StoreEvent.statusUpdated ts st] := by
  have hpt : ∀ r : Row,
      (if (r.timestamp == ts && r.is_outgoing) = true then { r with status := st } else r) =
        (if r.timestamp = ts ∧ r.is_outgoing = true then { r with status := st } else r) := by
    intro r
    by_cases h : r.timestamp = ts ∧ r.is_outgoing = true
    · rw [if_pos h, if_pos (by simp [h.1, h.2])]
    · rw [if_neg h, if_neg (by simpa [Bool.and_eq_true, beq_iff_eq] using h)]
  refine ⟨?_, ?_, ?_, rfl⟩
  · exact List.map_congr_left (fun r _ => hpt r)
  · intro hall
    cases s with
    | mk rows nextRowid =>
      simp only [updateMessageStatus]
      congr 1
      have : ∀ r ∈ rows,
          (if (r.timestamp == ts && r.is_outgoing) = true then { r with status := st } else r)
            = r := by
        intro r hr
        rw [List.all_eq_true] at hall
        have h0 := hall r hr
        have hx : (r.timestamp == ts && r.is_outgoing) = false := by
          cases hbb : (r.timestamp == ts && r.is_outgoing)
          · rfl
          · rw [hbb] at h0
            exact absurd h0 (by decide)
        rw [if_neg (by simp [hx])]
      rw [List.map_congr_left this]
      simp
  · intro r hr hout
    refine List.mem_map.mpr ⟨r, hr, ?_⟩
    rw [if_neg (by simp [hout])]

theorem receiptStatus_eq (rtype : String) :
    receiptStatus rtype = if rtype = "READ" ∨ rtype = "VIEWED" then "read" else "delivered" := by
  unfold receiptStatus
  by_cases h : rtype = "READ" ∨ rtype = "VIEWED"
  · rw [if_pos (by rcases h with h | h <;> simp [h]), if_pos h]
  · rw [if_neg (by simpa using h), if_neg h]

theorem handleReceipt_step (st : String) (t : Int) (rest : List Int) (r : Row) :
    (fun r : Row => if r.is_outgoing = true ∧ r.timestamp ∈ rest then
        { r with status := st } else r)
      ((fun r : Row => if (r.timestamp == t && r.is_outgoing) = true then
        { r with status := st } else r) r) =
      (if r.is_outgoing = true ∧ r.timestamp ∈ t :: rest then { r with status := st } else r) := by
  by_cases hout : r.is_outgoing = true
  · by_cases ht : r.timestamp = t
    · simp [ht, hout, List.mem_cons]
    · by_cases hrest : r.timestamp ∈ rest
      · simp [ht, hout, hrest, List.mem_cons]
      · simp [ht, hout, hrest, List.mem_cons]
  · have hfalse : r.is_outgoing = false := by
      cases h : r.is_outgoing
      · rfl
      · exact absurd h hout
    simp [hfalse]

theorem handleReceipt_aux (st : String) :
    ∀ (tss : List Int) (s : StoreState) (evs : List StoreEvent),
      (tss.foldl (fun acc ts =>
          let r := updateMessageStatus acc.1 ts st
          (r.1, acc.2 ++ r.2)) (s, evs)).1.rows =
        s.rows.map (fun r =>
          if r.is_outgoing = true ∧ r.timestamp ∈ tss then { r with status := st } else r) ∧
      (tss.foldl (fun acc ts =>
          let r := updateMessageStatus acc.1 ts st
          (r.1, acc.2 ++ r.2)) (s, evs)).2 =
        evs ++ tss.map (fun ts => StoreEvent.statusUpdated ts st) := by
  intro tss
  induction tss with
  | nil =>
    intro s evs
    constructor
    · simp only [List.foldl_nil]
      have : ∀ r ∈ s.rows,
          (if r.is_outgoing = true ∧ r.timestamp ∈ ([] : List Int) then
            { r with status := st } else r) = r := by
        intro r _
        rw [if_neg (by simp)]
      rw [List.map_congr_left this]
      simp
    · simp
  | cons t rest ih =>
    intro s evs
    simp only [List.foldl_cons]
    obtain ⟨ihrows, ihevs⟩ := ih (updateMessageStatus s t st).1 (evs ++ (updateMessageStatus s t st).2)
    constructor
    · rw [ihrows]
      show (s.rows.map _).map _ = _
      rw [List.map_map]
      exact List.map_congr_left (fun r _ => handleReceipt_step st t rest r)
    · rw [ihevs]
      simp [updateMessageStatus]

/-- Claim C8: processing a classified receipt envelope performs one status
update per timestamp in the receipt's list, each an outgoing-only status
write of "read" when the receipt type is READ or VIEWED and of "delivered"
for any other type; the resulting table updates exactly the outgoing rows
whose timestamp is in the list. -/
theorem receipt_updates_every_timestamp (s : StoreState) (rtype : String) (tss : List Int) :
    (handleReceiptEnvelope s rtype tss).1.rows =
      s.rows.map (fun r =>
        if r.is_outgoing = true ∧ r.timestamp ∈ tss then
          { r with status := if rtype = "READ" ∨ rtype = "VIEWED" then "read" else "delivered" }
        else r) ∧
    (handleReceiptEnvelope s rtype tss).2 =
      tss.map (fun ts => StoreEvent.statusUpdated ts
        (if rtype = "READ" ∨ rtype = "VIEWED" then "read" else "delivered")) := by
  unfold handleReceiptEnvelope
  simp only [← receiptStatus_eq]
  have h := handleReceipt_aux (receiptStatus rtype) tss s []
  exact ⟨h.1, by simpa using h.2⟩

/-- Claim C7 (witness): on a store holding one incoming message at timestamp
5, updateMessageStatus(5, "read") leaves the stored data untouched and emits
the status-updated event. -/
theorem updateMessageStatus_frame_witness :
    ((StoreState.mk [Row.mk 0 "a" "k" "x" none "hi" 5 false "sent"] 1).rows.all
      (fun r => !(r.timestamp == (5 : Int) && r.is_outgoing)) = true) ∧
    (updateMessageStatus (StoreState.mk [Row.mk 0 "a" "k" "x" none "hi" 5 false "sent"] 1)
      5 "read").1 = StoreState.mk [Row.mk 0 "a" "k" "x" none "hi" 5 false "sent"] 1 ∧
    (updateMessageStatus (StoreState.mk [Row.mk 0 "a" "k" "x" none "hi" 5 false "sent"] 1)
      5 "read").2 = [StoreEvent.statusUpdated 5 "read"] := by
  refine ⟨by decide, ?_, ?_⟩
  · exact (updateMessageStatus_frame
      (StoreState.mk [Row.mk 0 "a" "k" "x" none "hi" 5 false "sent"] 1) 5 "read").2.1 (by decide)
  · exact (updateMessageStatus_frame
      (StoreState.mk [Row.mk 0 "a" "k" "x" none "hi" 5 false "sent"] 1) 5 "read").2.2.2

theorem noNl_splitNl (l : List Char) (h : '\n' ∉ l) : splitNl l = ([], l) := by
  induction l with
  | nil => rfl
  | cons c cs ih =>
    have hc : ¬c = '\n' := fun he => h (he ▸ List.mem_cons_self c cs)
    have hcs : '\n' ∉ cs := fun hm => h (List.mem_cons_of_mem c hm)
    simp only [splitNl, if_neg hc, ih hcs]

theorem splitNl_residue_no_nl : ∀ l : List Char, '\n' ∉ (splitNl l).2 := by
  intro l
  induction l with
  | nil => simp [splitNl]
  | cons c cs ih =>
    by_cases hc : c = '\n'
    · subst hc
      simpa [splitNl] using ih
    · simp only [splitNl, if_neg hc]
      cases h1 : (splitNl cs).1 with
      | nil =>
        intro hmem
        rcases List.mem_cons.mp hmem with he | hm
        · exact hc he.symm
        · exact ih hm
      | cons lh lt => exact ih

theorem splitNl_append (a b : List Char) :
    splitNl (a ++ b) =
      ((splitNl a).1 ++ (splitNl ((splitNl a).2 ++ b)).1,
        (splitNl ((splitNl a).2 ++ b)).2) := by
  induction a with
  | nil => simp [splitNl]
  | cons c cs ih =>
    by_cases hc : c = '\n'
    · subst hc
      simp only [List.cons_append, splitNl, if_true, List.append_eq]
      rw [ih]
    · simp only [List.cons_append, splitNl, if_neg hc, List.append_eq]
      rw [ih]
      rcases h1 : (splitNl cs).1 with _ | ⟨lh, lt⟩ <;>
        rcases h2 : (splitNl ((splitNl cs).2 ++ b)).1 with _ | ⟨l2, t2⟩ <;>
          simp [h1, h2, splitNl, hc, List.append_eq]

theorem feedChunks_eq_splitNl (chunks : List (List Char)) :
    ∀ buffer : List Char, '\n' ∉ buffer →
      feedChunks buffer chunks = splitNl (buffer ++ chunks.flatten) := by
  induction chunks with
  | nil =>
    intro buf h
    simp [feedChunks, noNl_splitNl buf h]
  | cons c cs ih =>
    intro buf h
    simp only [feedChunks, processBufferStep, List.flatten_cons]
    rw [ih (splitNl (buf ++ c)).2 (splitNl_residue_no_nl _), ← List.append_assoc,
      splitNl_append (buf ++ c) cs.flatten]

/-- Claim C5: the framing step appends each chunk to the rolling buffer,
splits on newline, hands every element but the last to line handling, keeps
the last element as the new residue, and over any chunk sequence this yields
exactly the complete-line decomposition of the concatenated bytes (each
complete line handled once, independent of chunk boundaries); per line, a
parse failure is skipped without affecting the handling of any other line. -/
theorem line_framing (buffer : List Char) (chunks : List (List Char))
    (hbuf : '\n' ∉ buffer) :
    feedChunks buffer chunks = splitNl (buffer ++ chunks.flatten) ∧
    (∀ (parse : List Char → Option Json) (ls1 ls2 : List (List Char)) (bad : List Char),
      parse bad = none →
      processLines parse (ls1 ++ bad :: ls2) =
        processLines parse ls1 ++ processLines parse ls2) := by
  constructor
  · exact feedChunks_eq_splitNl chunks buffer hbuf
  · intro parse ls1 ls2 bad hbad
    unfold processLines
    have hf : (if jsTrim bad == [] then none else parse bad) = none := by
      by_cases hb : (jsTrim bad == []) = true
      · rw [if_pos hb]
      · rw [if_neg hb, hbad]
    rw [List.filterMap_append, List.filterMap_cons, hf]

/-- Claim C5 (witness): feeding the two chunks "a\nb" and "c\n" through the
rolling buffer yields the lines of their concatenation, and a parse-rejected
line between two good lines drops out without affecting them. -/
theorem line_framing_witness :
    ('\n' ∉ ([] : List Char)) ∧
    feedChunks [] [['a', '\n', 'b'], ['c', '\n']] =
      splitNl ([] ++ ([['a', '\n', 'b'], ['c', '\n']] : List (List Char)).flatten) ∧
    ((fun l : List Char => if l == ['x'] then none else some (Json.str "v")) ['x'] = none) ∧
    processLines (fun l : List Char => if l == ['x'] then none else some (Json.str "v"))
        ([['a']] ++ ['x'] :: [['b']]) =
      processLines (fun l : List Char => if l == ['x'] then none else some (Json.str "v"))
          [['a']] ++
        processLines (fun l : List Char => if l == ['x'] then none else some (Json.str "v"))
          [['b']] := by
  refine ⟨by decide, (line_framing [] [['a', '\n', 'b'], ['c', '\n']] (by decide)).1, rfl, ?_⟩
  exact (line_framing [] [] (by decide)).2
    (fun l : List Char => if l == ['x'] then none else some (Json.str "v"))
    [['a']] [['b']] ['x'] rfl

theorem toChat_mkRow (m : ChatMessage) (k : String) (rid : Nat)
    (hsn : m.senderName ≠ some "") (hst1 : m.status ≠ none) (hst2 : m.status ≠ some "") :
    toChat (mkRow m k rid) = m := by
  have h1 : jsStrOrNull (jsStrOrNull m.senderName) = m.senderName := by
    cases hn : m.senderName with
    | none => rfl
    | some v =>
      have hv : v ≠ "" := fun he => hsn (by rw [hn, he])
      simp [jsStrOrNull, hv]
  have h2 : some (statusOrSent m.status) = m.status := by
    cases hs : m.status with
    | none => exact absurd hs hst1
    | some v =>
      have hv : v ≠ "" := fun he => hst2 (by rw [hs, he])
      simp [statusOrSent, hv]
  cases m with
  | mk id sender senderName content timestamp isOutgoing status =>
    simp only [toChat, mkRow] at h1 h2 ⊢
    simp [ChatMessage.mk.injEq, h1, h2]

theorem insertionSort_append_max (x : Row) :
    ∀ l : List Row, (∀ y ∈ l, ¬rowGe y x) →
      (l ++ [x]).insertionSort rowGe = x :: l.insertionSort rowGe := by
  intro l
  induction l with
  | nil =>
    intro _
    simp [List.insertionSort]
  | cons y l ih =>
    intro h
    have hy : ¬rowGe y x := h y (List.mem_cons_self y l)
    rw [List.cons_append]
    simp only [List.insertionSort]
    rw [ih (fun z hz => h z (List.mem_cons_of_mem y hz))]
    simp only [List.orderedInsert]
    rw [if_neg hy]

/-- Claim C6: when a message's timestamp is at least as large as that of
every message already stored under the key (in particular on a fresh key),
addMessage followed immediately by getMessages with limit at least 1 returns
an oldest-first sequence whose last element is the message itself, the write
being visible to the immediately following read. -/
theorem addMessage_getMessages_roundtrip (s : StoreState) (m : ChatMessage) (k : String)
    (limit : Nat)
    (hrow : s.rows.all (fun r => decide (r.rowid < s.nextRowid)) = true)
    (hts : s.rows.all
      (fun r => !(r.conversation_id == k) || decide (r.timestamp ≤ m.timestamp)) = true)
    (hlim : 1 ≤ limit)
    (hsn : m.senderName ≠ some "")
    (hst1 : m.status ≠ none) (hst2 : m.status ≠ some "") :
    List.Pairwise (fun a b : ChatMessage => a.timestamp ≤ b.timestamp)
      (getMessages (addMessage s m k).1 k limit none) ∧
    (getMessages (addMessage s m k).1 k limit none).getLast? = some m := by
  have hQx : matchesQuery k none (mkRow m k s.nextRowid) = true := by
    simp [matchesQuery, mkRow]
  have hrows : (addMessage s m k).1.rows
      = s.rows.filter (fun r => !(r.id == m.id)) ++ [mkRow m k s.nextRowid] := rfl
  have hfilter : (addMessage s m k).1.rows.filter (matchesQuery k none)
      = (s.rows.filter (fun r => !(r.id == m.id))).filter (matchesQuery k none)
        ++ [mkRow m k s.nextRowid] := by
    rw [hrows, List.filter_append]
    congr 1
    simp [hQx]
  have hmax : ∀ y ∈ (s.rows.filter (fun r => !(r.id == m.id))).filter (matchesQuery k none),
      ¬rowGe y (mkRow m k s.nextRowid) := by
    intro y hy
    have hy1 := (List.mem_filter.mp hy).1
    have hyQ := (List.mem_filter.mp hy).2
    have hys : y ∈ s.rows := (List.mem_filter.mp hy1).1
    have hconv : y.conversation_id = k := by
      simpa [matchesQuery] using hyQ
    have hts' : y.timestamp ≤ m.timestamp := by
      rw [List.all_eq_true] at hts
      have h0 := hts y hys
      rw [show (y.conversation_id == k) = true by simp [hconv]] at h0
      simpa using h0
    have hrid : y.rowid < s.nextRowid := by
      rw [List.all_eq_true] at hrow
      simpa using hrow y hys
    intro hge
    rcases hge with hlt | ⟨heq, hle⟩
    · simp only [mkRow] at hlt
      exact absurd hlt (not_lt.mpr hts')
    · simp only [mkRow] at hle
      exact absurd hrid (not_lt.mpr hle)
  have hsorted := List.sorted_insertionSort rowGe
    ((addMessage s m k).1.rows.filter (matchesQuery k none))
  constructor
  · unfold getMessages
    apply List.pairwise_reverse.mpr
    refine List.Pairwise.map toChat ?_
      (List.Pairwise.sublist (List.take_sublist limit _) hsorted)
    intro a b hab
    rcases hab with hlt2 | ⟨heq2, _⟩
    · exact le_of_lt hlt2
    · exact le_of_eq heq2
  · unfold getMessages
    rw [hfilter, insertionSort_append_max _ _ hmax]
    obtain ⟨n, rfl⟩ : ∃ n, limit = n + 1 :=
      ⟨limit - 1, (Nat.succ_pred_eq_of_pos hlim).symm⟩
    rw [List.take_succ_cons, List.map_cons, List.reverse_cons, List.getLast?_concat,
      toChat_mkRow m k s.nextRowid hsn hst1 hst2]

/-- Claim C6 (witness): adding "hello" at timestamp 10 to an empty store and
reading the conversation back with limit 50 returns it as the last (and
only) element, oldest-first. -/
theorem addMessage_getMessages_roundtrip_witness :
    ((StoreState.mk [] 0).rows.all (fun r => decide (r.rowid < (0 : Nat))) = true) ∧
    ((StoreState.mk [] 0).rows.all
      (fun r => !(r.conversation_id == "k") || decide (r.timestamp ≤ (10 : Int))) = true) ∧
    (getMessages (addMessage (StoreState.mk [] 0)
        (ChatMessage.mk "10" "Me" none "hello" 10 true (some "sent")) "k").1
      "k" 50 none).getLast? =
      some (ChatMessage.mk "10" "Me" none "hello" 10 true (some "sent")) := by
  refine ⟨by decide, by decide, ?_⟩
  exact (addMessage_getMessages_roundtrip (StoreState.mk [] 0)
    (ChatMessage.mk "10" "Me" none "hello" 10 true (some "sent")) "k" 50
    (by decide) (by decide) (by decide) (by decide) (by decide) (by decide)).2

/-- Claim C2: replaceMessage removes the row with the optimistic id and
inserts the confirmed message, emitting message-replaced(oldId, newMessage);
consequently, after addMessage(optimistic, k) then
replaceMessage(optimistic.id, real, k), reading the conversation back
contains real and contains no record with the optimistic id. -/
theorem replaceMessage_promotes (s : StoreState) (optimistic real : ChatMessage) (k : String)
    (limit : Nat)
    (hid : optimistic.id ≠ real.id)
    (hsn : real.senderName ≠ some "")
    (hst1 : real.status ≠ none) (hst2 : real.status ≠ some "")
    (hlim : ((replaceMessage (addMessage s optimistic k).1 optimistic.id real k).1.rows.filter
        (matchesQuery k none)).length ≤ limit) :
    real ∈ getMessages (replaceMessage (addMessage s optimistic k).1 optimistic.id real k).1
        k limit none ∧
    (∀ msg ∈ getMessages (replaceMessage (addMessage s optimistic k).1 optimistic.id real k).1
        k limit none, msg.id ≠ optimistic.id) ∧
    (replaceMessage (addMessage s optimistic k).1 optimistic.id real k).2 =
      [StoreEvent.messageReplaced optimistic.id real] := by
  have hrows2 : (replaceMessage (addMessage s optimistic k).1 optimistic.id real k).1.rows =
      (((addMessage s optimistic k).1.rows.filter
          (fun r => !(r.id == optimistic.id))).filter (fun r => !(r.id == real.id))) ++
        [mkRow real k (addMessage s optimistic k).1.nextRowid] := rfl
  have hQx : matchesQuery k none (mkRow real k (addMessage s optimistic k).1.nextRowid) = true := by
    simp [matchesQuery, mkRow]
  have htake : List.take limit
      (((replaceMessage (addMessage s optimistic k).1 optimistic.id real k).1.rows.filter
        (matchesQuery k none)).insertionSort rowGe) =
      ((replaceMessage (addMessage s optimistic k).1 optimistic.id real k).1.rows.filter
        (matchesQuery k none)).insertionSort rowGe := by
    apply List.take_of_length_le
    rw [(List.perm_insertionSort rowGe _).length_eq]
    exact hlim
  have hxfilter : mkRow real k (addMessage s optimistic k).1.nextRowid ∈
      ((replaceMessage (addMessage s optimistic k).1 optimistic.id real k).1.rows.filter
        (matchesQuery k none)) := by
    refine List.mem_filter.mpr ⟨?_, hQx⟩
    rw [hrows2]
    exact List.mem_append_right _ (List.mem_singleton_self _)
  refine ⟨?_, ?_, rfl⟩
  · unfold getMessages
    rw [htake]
    apply List.mem_reverse.mpr
    refine List.mem_map.mpr ⟨mkRow real k (addMessage s optimistic k).1.nextRowid, ?_,
      toChat_mkRow real k _ hsn hst1 hst2⟩
    exact (List.perm_insertionSort rowGe _).mem_iff.mpr hxfilter
  · intro msg hmsg
    unfold getMessages at hmsg
    rw [htake] at hmsg
    have hmsg2 := List.mem_reverse.mp hmsg
    obtain ⟨r, hr, hEq⟩ := List.mem_map.mp hmsg2
    have hrfil : r ∈ ((replaceMessage (addMessage s optimistic k).1 optimistic.id
        real k).1.rows.filter (matchesQuery k none)) :=
      (List.perm_insertionSort rowGe _).mem_iff.mp hr
    have hrmem : r ∈ (replaceMessage (addMessage s optimistic k).1 optimistic.id
        real k).1.rows := (List.mem_filter.mp hrfil).1
    rw [hrows2] at hrmem
    have hrid : r.id ≠ optimistic.id := by
      rcases List.mem_append.mp hrmem with hF | hx
      · have hinner := (List.mem_filter.mp (List.mem_filter.mp hF).1).2
        simpa using hinner
      · have : r = mkRow real k (addMessage s optimistic k).1.nextRowid :=
          List.mem_singleton.mp hx
        rw [this]
        intro he
        have he2 : real.id = optimistic.id := by simpa [mkRow] using he
        exact hid he2.symm
    rw [← hEq]
    exact hrid

/-- Claim C2 (witness): on an empty store, adding the optimistic message
with id "100" and replacing it by the confirmed message with id "200" makes
the read-back contain the confirmed message, and the replacement emits
message-replaced("100", confirmed). -/
theorem replaceMessage_promotes_witness :
    (("100" : String) ≠ "200") ∧
    ((replaceMessage (addMessage (StoreState.mk [] 0)
        (ChatMessage.mk "100" "Me" none "hi" 100 true (some "sent")) "k").1
        "100" (ChatMessage.mk "200" "Me" none "hi" 200 true (some "sent")) "k").1.rows.filter
          (matchesQuery "k" none)).length ≤ 50 ∧
    (ChatMessage.mk "200" "Me" none "hi" 200 true (some "sent")) ∈
      getMessages (replaceMessage (addMessage (StoreState.mk [] 0)
          (ChatMessage.mk "100" "Me" none "hi" 100 true (some "sent")) "k").1
        "100" (ChatMessage.mk "200" "Me" none "hi" 200 true (some "sent")) "k").1 "k" 50 none ∧
    (replaceMessage (addMessage (StoreState.mk [] 0)
        (ChatMessage.mk "100" "Me" none "hi" 100 true (some "sent")) "k").1
      "100" (ChatMessage.mk "200" "Me" none "hi" 200 true (some "sent")) "k").2 =
      [StoreEvent.messageReplaced "100"
        (ChatMessage.mk "200" "Me" none "hi" 200 true (some "sent"))] := by
  refine ⟨by decide, by decide, ?_, ?_⟩
  · exact (replaceMessage_promotes (StoreState.mk [] 0)
      (ChatMessage.mk "100" "Me" none "hi" 100 true (some "sent"))
      (ChatMessage.mk "200" "Me" none "hi" 200 true (some "sent")) "k" 50
      (by decide) (by decide) (by decide) (by decide) (by decide)).1
  · exact (replaceMessage_promotes (StoreState.mk [] 0)
      (ChatMessage.mk "100" "Me" none "hi" 100 true (some "sent"))
      (ChatMessage.mk "200" "Me" none "hi" 200 true (some "sent")) "k" 50
      (by decide) (by decide) (by decide) (by decide) (by decide)).2.2
